import Mathlib

/-!
# Verification of the v3 init supervisor (`src/init_main_v3.c`)

A shallow embedding of the supervisor core of `init_main_v3.c`: the process
table, the dependency resolver (`check_all_dependencies_active`), the spawner
(`start_process`), the retry wrapper (`start_process_with_retry`), the SIGCHLD
reaper (`handle_signal`), resource-cap application (`set_resource_limits`),
runlevel switching (`switch_runlevel`), configuration reload
(`reload_configuration`), the health scan (`health_check` body), the service
management commands (`manage_services`), and the `sscanf`-based line parsing of
`init_processes`.

Modelling conventions:
* The global array `processes[MAX_PROCESSES]` together with `process_count` is
  modelled as a `List Process` (the first `process_count` entries of the array);
  `current_runlevel` lives beside it in `SysState`.
* `fork()` is an external effect; its outcome is passed in as an
  `Option Nat` (`none` = fork failure, `some pid` = the parent's view).
* Log emission (`log_message(level, msg)`) is modelled by returning the list of
  `(level, message)` pairs an operation emits.
* Cgroup writes are modelled as a list of `CgroupWrite` effects.
* Exit statuses are carried by child-exit events, as the design describes; the
  source calls `waitpid(-1, NULL, WNOHANG)`, so the handler receives the pid
  only and the status argument is discarded.
-/

namespace InitV3

/-- `MAX_PROCESSES` from the source. -/
def MAX_PROCESSES : Nat := 10

/-- `MAX_RUNLEVELS` from the source. -/
def MAX_RUNLEVELS : Int := 5

/-- A log line as passed to `log_message`: level and message. -/
abbrev Log := String × String

/-- The `Process` struct of the source (one process-table entry). -/
structure Process where
  pid : Nat
  command : String
  runlevel : Int
  active : Bool
  dependencies : String
  state : String
  health_pipe : Nat × Nat
  memory_limit : Int
  cpu_limit : Int
deriving DecidableEq, Repr

/-- The supervisor's global mutable state: the live prefix of
`processes[]` (length = `process_count`) and `current_runlevel`. -/
structure SysState where
  processes : List Process
  current_runlevel : Int
deriving DecidableEq, Repr

/-- The five values a successful 5-field `sscanf` of an inittab line yields. -/
structure Decl where
  runlevel : Int
  command : String
  dependencies : String
  memory_limit : Int
  cpu_limit : Int
deriving DecidableEq, Repr

/-- Split a character list into the maximal runs of non-delimiter characters,
dropping empty runs, exactly as repeated `strtok` calls do. The accumulator
holds the current run reversed. -/
def splitChunks (isDelim : Char → Bool) : List Char → List Char → List (List Char)
  | [], acc => if acc.isEmpty then [] else [acc.reverse]
  | c :: rest, acc =>
    if isDelim c then
      (if acc.isEmpty then [] else [acc.reverse]) ++ splitChunks isDelim rest []
    else
      splitChunks isDelim rest (c :: acc)

/-- The token sequence produced by `strtok(strdup(s), ",")` iterated to NULL:
comma-separated chunks with empty chunks skipped. -/
def strtokTokens (s : String) : List String :=
  (splitChunks (fun c => c == ',') s.data []).map fun cs => String.mk cs

/-- The inner `for` loop of `check_all_dependencies_active`: scan the table for
a record whose `command` equals `dep` and whose `state` is `"running"`,
stopping at the first hit (`found = true; break`). -/
def depRunning (procs : List Process) (dep : String) : Bool :=
  match procs with
  | [] => false
  | p :: rest =>
    if p.command = dep ∧ p.state = "running" then true else depRunning rest dep

/-- The outer `while (dep)` loop of `check_all_dependencies_active`: fail at
the first token that is not found running. -/
def checkTokens (procs : List Process) : List String → Bool
  | [] => true
  | dep :: rest => if depRunning procs dep then checkTokens procs rest else false

/-- `check_all_dependencies_active` from the source: tokenize the
`dependencies` string with `strtok(.., ",")` and require every token to name a
table entry in state `"running"`. -/
def check_all_dependencies_active (dependencies : String) (procs : List Process) : Bool :=
  checkTokens procs (strtokTokens dependencies)

/-- One write performed against the cgroup filesystem. -/
inductive CgroupWrite where
  | memLimit (value : Int)
  | cpuQuota (value : Int)
  | addPid (pid : Nat)
deriving DecidableEq, Repr

/-- `set_resource_limits` from the source, as the sequence of cgroup writes it
attempts: the memory-limit file always receives `memory_limit`, the CPU-quota
file always receives `cpu_limit * 10000`, and the pid is appended to
`cgroup.procs`. There is no positivity guard in the source. -/
def set_resource_limits (pid : Nat) (memory_limit cpu_limit : Int) : List CgroupWrite :=
  [CgroupWrite.memLimit memory_limit,
   CgroupWrite.cpuQuota (cpu_limit * 10000),
   CgroupWrite.addPid pid]

/-- Modelled from the spec: §4.2 Resource Controller. Write the memory file
only when `memory_bytes > 0`, the CPU-quota file (value
`cpu_percent * 10000`) only when `cpu_percent > 0`, then append the pid. Used
to compare the source's behavior against the claimed conditional writes. -/
def set_resource_limits_spec (pid : Nat) (memory_bytes cpu_percent : Int) : List CgroupWrite :=
  (if 0 < memory_bytes then [CgroupWrite.memLimit memory_bytes] else []) ++
    (if 0 < cpu_percent then [CgroupWrite.cpuQuota (cpu_percent * 10000)] else []) ++
    [CgroupWrite.addPid pid]

/-- Which branch of `start_process` ran. The C function returns `void`; the
branches are distinguished by their log lines and effects. -/
inductive StartResult where
  | maxReached
  | depsUnmet
  | forkFailed
  | started
deriving DecidableEq, Repr

/-- The record the parent branch of `start_process` commits:
`(Process){pid, "", runlevel, true, "", "running", {0, 0}, memory_limit,
cpu_limit}` followed by `strncpy` of `command` and `dependencies`. -/
def newRecord (pid : Nat) (command : String) (runlevel : Int) (dependencies : String)
    (memory_limit cpu_limit : Int) : Process :=
  { pid := pid, command := command, runlevel := runlevel, active := true,
    dependencies := dependencies, state := "running", health_pipe := (0, 0),
    memory_limit := memory_limit, cpu_limit := cpu_limit }

/-- `start_process` from the source: reject when the table is full, then when
dependencies are unmet, then fork (outcome supplied by `forkOutcome`); on
success append the new record at `processes[process_count++]`. -/
def start_process (st : SysState) (command : String) (runlevel : Int) (dependencies : String)
    (memory_limit cpu_limit : Int) (forkOutcome : Option Nat) :
    SysState × StartResult × List Log :=
  if MAX_PROCESSES ≤ st.processes.length then
    (st, StartResult.maxReached, [("ERROR", "Max processes reached")])
  else if check_all_dependencies_active dependencies st.processes = false then
    (st, StartResult.depsUnmet,
      [("WARNING", "Cannot start " ++ command ++ ": dependencies not satisfied")])
  else
    match forkOutcome with
    | none => (st, StartResult.forkFailed, [("ERROR", "Failed to fork process")])
    | some pid =>
      ({ st with
          processes :=
            st.processes ++ [newRecord pid command runlevel dependencies memory_limit cpu_limit] },
        StartResult.started,
        [("INFO", "Started process: " ++ command ++ " with PID: " ++ toString pid ++
          " for runlevel: " ++ toString runlevel)])

/-- `start_process_with_retry` from the source: up to `max_retries` attempts;
each attempt re-runs the dependency check and, when it passes, calls
`start_process` once and returns `true` immediately (whatever `start_process`
did); otherwise it sleeps 1 s and retries. Nothing can mutate the state during
the sleep in this sequential model, so the recursive call sees the same state.
When all attempts fail the check, it logs ERROR and returns `false`. -/
def start_process_with_retry (st : SysState) (command : String) (runlevel : Int)
    (dependencies : String) (memory_limit cpu_limit : Int) (forkOutcome : Option Nat) :
    Nat → SysState × Bool × List Log
  | 0 => (st, false, [("ERROR", "Failed to start process after retries")])
  | Nat.succ n =>
    if check_all_dependencies_active dependencies st.processes = true then
      let r := start_process st command runlevel dependencies memory_limit cpu_limit forkOutcome
      (r.1, true, r.2.2)
    else
      start_process_with_retry st command runlevel dependencies memory_limit cpu_limit forkOutcome n

/-- The update `handle_signal` applies to a matched record:
`active = false; state = "stopped"`. -/
def stoppedOf (p : Process) : Process :=
  { p with active := false, state := "stopped" }

/-- The per-pid body of `handle_signal`'s reaping loop: find the first record
with the given pid (`break` after the first hit), mark it stopped and log; if
no record matches, do nothing. -/
def reapPid : List Process → Nat → List Process × List Log
  | [], _ => ([], [])
  | p :: rest, pid =>
    if p.pid = pid then
      (stoppedOf p :: rest,
        [("INFO", "Process " ++ p.command ++ " (PID " ++ toString pid ++ ") finished")])
    else
      let r := reapPid rest pid
      (p :: r.1, r.2)

/-- The ChildExit event handler. The event carries pid and exit status; the
source calls `waitpid(-1, NULL, WNOHANG)`, so the status is discarded. -/
def childExitUpdate (procs : List Process) (pid : Nat) (_status : Int) :
    List Process × List Log :=
  reapPid procs pid

/-- The per-declaration body of the `init_processes` read loop (given a
successful 5-field parse): start the service, with 3 retries, only when its
runlevel equals `current_runlevel`. -/
def init_decl (st : SysState) (d : Decl) (forkOutcome : Option Nat) : SysState × List Log :=
  if d.runlevel = st.current_runlevel then
    let r := start_process_with_retry st d.command d.runlevel d.dependencies
      d.memory_limit d.cpu_limit forkOutcome 3
    (r.1, r.2.2)
  else (st, [])

/-- `init_processes` over a list of parsed declarations, each paired with the
fork outcome its (single) spawn attempt would see. -/
def init_decls (st : SysState) : List (Decl × Option Nat) → SysState × List Log
  | [] => (st, [])
  | (d, f) :: rest =>
    let r := init_decl st d f
    let r2 := init_decls r.1 rest
    (r2.1, r.2 ++ r2.2)

/-- `switch_runlevel` from the source: reject out-of-range runlevels with an
ERROR log; otherwise set `current_runlevel`, terminate and mark every active
process, reset `process_count` to 0 (so the table is empty), and reseed via
`init_processes`. -/
def switch_runlevel (st : SysState) (new_runlevel : Int) (config : List (Decl × Option Nat)) :
    SysState × List Log :=
  if new_runlevel < 0 ∨ MAX_RUNLEVELS ≤ new_runlevel then
    (st, [("ERROR", "Invalid runlevel")])
  else
    let r := init_decls { processes := [], current_runlevel := new_runlevel } config
    (r.1,
      ("INFO", "Switching from runlevel " ++ toString st.current_runlevel ++ " to " ++
        toString new_runlevel) :: r.2)

/-- `reload_configuration` from the source: reset `process_count` to 0 and
rerun `init_processes` (running children are not stopped). -/
def reload_configuration (st : SysState) (config : List (Decl × Option Nat)) :
    SysState × List Log :=
  let r := init_decls { st with processes := [] } config
  (r.1, ("INFO", "Reloading configuration...") :: r.2)

/-- The `"start"` branch of `manage_services`: find the first inactive record
with the given command and call `start_process` on its stored fields. -/
def manage_start (st : SysState) (service_name : String) (forkOutcome : Option Nat) :
    SysState × List Log :=
  match st.processes.find? (fun p => p.command == service_name && !p.active) with
  | some p =>
    let r := start_process st p.command p.runlevel p.dependencies p.memory_limit p.cpu_limit
      forkOutcome
    (r.1, r.2.2)
  | none => (st, [])

/-- The `"stop"` branch of `manage_services`: mark the first active record with
the given command stopped. -/
def stopFirst : List Process → String → List Process
  | [], _ => []
  | p :: rest, name =>
    if p.command = name ∧ p.active = true then stoppedOf p :: rest
    else p :: stopFirst rest name

/-- `manage_services` with the `"stop"` subcommand. -/
def manage_stop (st : SysState) (service_name : String) : SysState × List Log :=
  ({ st with processes := stopFirst st.processes service_name }, [])

/-- One pass of the `health_check` scan
(`for (i = 0; i < process_count; i++)`): restart (with 3 retries) every
inactive record from its stored fields. The table can grow while the loop
runs, so the index is compared against the current length each iteration;
`fuel` bounds the loop (the table never exceeds `MAX_PROCESSES` entries in
reachable states, so `MAX_PROCESSES + 1` steps always suffice). Each restart
attempt draws its fork outcome from the head of `forks`. -/
def health_scan (st : SysState) (i : Nat) (forks : List (Option Nat)) :
    Nat → SysState × List Log
  | 0 => (st, [])
  | Nat.succ fuel =>
    match st.processes[i]? with
    | none => (st, [])
    | some p =>
      if p.active then health_scan st (i + 1) forks fuel
      else
        let r := start_process_with_retry st p.command p.runlevel p.dependencies
          p.memory_limit p.cpu_limit (forks.headD none) 3
        let r2 := health_scan r.1 (i + 1) forks.tail fuel
        (r2.1, ("INFO", "Restarting process: " ++ p.command) :: (r.2.2 ++ r2.2))

/-- One `health_check` tick: scan the table from index 0. -/
def health_tick (st : SysState) (forks : List (Option Nat)) : SysState × List Log :=
  health_scan st 0 forks (MAX_PROCESSES + 1)

/-- The events the supervisor core reacts to. Fork outcomes are carried by the
events because `fork()` is external. -/
inductive Event where
  | initLine (d : Decl) (forkOutcome : Option Nat)
  | childExit (pid : Nat) (status : Int)
  | healthTick (forks : List (Option Nat))
  | switchRL (n : Int) (config : List (Decl × Option Nat))
  | reload (config : List (Decl × Option Nat))
  | manageStart (service_name : String) (forkOutcome : Option Nat)
  | manageStop (service_name : String)
deriving Repr

/-- Dispatch one event to the corresponding handler of the source. -/
def step (st : SysState) : Event → SysState × List Log
  | Event.initLine d f => init_decl st d f
  | Event.childExit pid status =>
    let r := childExitUpdate st.processes pid status
    ({ st with processes := r.1 }, r.2)
  | Event.healthTick forks => health_tick st forks
  | Event.switchRL n config => switch_runlevel st n config
  | Event.reload config => reload_configuration st config
  | Event.manageStart name f => manage_start st name f
  | Event.manageStop name => manage_stop st name

/-- Run a sequence of events. -/
def runEvents (st : SysState) : List Event → SysState
  | [] => st
  | e :: rest => runEvents (step st e).1 rest

/-- The state at program start: empty table, runlevel 0. -/
def initState : SysState := { processes := [], current_runlevel := 0 }

/-- C `isspace` on the characters `sscanf` whitespace directives skip. -/
def isSpaceC (c : Char) : Bool :=
  c == ' ' || c == '\t' || c == '\n' || c == '\r' || c == '\x0b' || c == '\x0c'

/-- Skip leading whitespace, as a literal blank in an `sscanf` format does. -/
def skipWs (cs : List Char) : List Char := cs.dropWhile isSpaceC

/-- Decimal value of a digit run. -/
def digitsVal (ds : List Char) : Int :=
  ds.foldl (fun a c => a * 10 + ((c.toNat : Int) - 48)) 0

/-- Parse a nonempty digit run; fail on none. -/
def parseUnsigned (cs : List Char) : Option (Int × List Char) :=
  let ds := cs.takeWhile Char.isDigit
  if ds.isEmpty then none
  else some (digitsVal ds, cs.dropWhile Char.isDigit)

/-- The `%d` conversion: skip whitespace, optional sign, at least one digit. -/
def parseIntC (cs : List Char) : Option (Int × List Char) :=
  match skipWs cs with
  | [] => none
  | c :: rest =>
    if c = '-' then (parseUnsigned rest).map fun r => (-r.1, r.2)
    else if c = '+' then parseUnsigned rest
    else parseUnsigned (c :: rest)

/-- The `%[^\n]` conversion: the maximal nonempty run of characters other than
newline; an input failure (empty run) aborts the scan. It does not skip
leading whitespace. -/
def parseNotNl (cs : List Char) : Option (List Char × List Char) :=
  let tok := cs.takeWhile (fun c => c != '\n')
  if tok.isEmpty then none
  else some (tok, cs.dropWhile (fun c => c != '\n'))

/-- `sscanf(line, "%d %[^\n] %[^\n] %d %d", ...)` from `init_processes`:
the number of successful conversions, and the five parsed values when all five
conversions succeed. -/
def sscanf_inittab (line : String) : Nat × Option Decl :=
  match parseIntC line.data with
  | none => (0, none)
  | some (rl, r1) =>
    match parseNotNl (skipWs r1) with
    | none => (1, none)
    | some (cmd, r2) =>
      match parseNotNl (skipWs r2) with
      | none => (2, none)
      | some (deps, r3) =>
        match parseIntC r3 with
        | none => (3, none)
        | some (mem, r4) =>
          match parseIntC r4 with
          | none => (4, none)
          | some (cpu, _) =>
            (5, some { runlevel := rl, command := String.mk cmd,
                       dependencies := String.mk deps, memory_limit := mem,
                       cpu_limit := cpu })

/-- One iteration of the `fgets` loop of `init_processes`: run the `sscanf`
above and, on a full 5-field parse, process the declaration (runlevel guard
plus retry start); otherwise skip the line. -/
def init_processes_line (st : SysState) (line : String) (forkOutcome : Option Nat) :
    SysState × List Log :=
  match sscanf_inittab line with
  | (_, some d) => init_decl st d forkOutcome
  | (_, none) => (st, [])

/-- Parse a whole field as an integer (no trailing characters allowed). -/
def parseIntField (cs : List Char) : Option Int :=
  match parseIntC cs with
  | some (v, rest) => if rest.isEmpty then some v else none
  | none => none

/-- Modelled from the spec: the §6 inittab schema. Five whitespace-separated
fields `runlevel command deps mem_bytes cpu_pct`; lines beginning with `#` and
blank lines are ignored; any other shape is malformed. The declaration keeps
the five field values verbatim (`deps` stays the raw field, e.g. `"-"`). -/
def specParseLine (line : String) : Option Decl :=
  if line.data.headD ' ' = '#' then none
  else
    match splitChunks isSpaceC line.data [] with
    | [rl, cmd, deps, mem, cpu] =>
      match parseIntField rl, parseIntField mem, parseIntField cpu with
      | some r, some m, some c =>
        some { runlevel := r, command := String.mk cmd, dependencies := String.mk deps,
               memory_limit := m, cpu_limit := c }
      | _, _, _ => none
    | _ => none

/-- The input is a single line: no interior newline — at most one `'\n'`,
at the very end. This is the shape of every buffer `fgets` hands to
`sscanf` in `init_processes`. -/
def noInnerNl (cs : List Char) : Prop :=
  '\n' ∉ cs ∨ ∃ cs', cs = cs' ++ ['\n'] ∧ '\n' ∉ cs'

/-- The §6 example line, as `fgets` delivers it. -/
def exampleLine : String := "3 /usr/sbin/sshd syslogd 67108864 20\n"

/-- What the §6 schema says `exampleLine` declares. -/
def exampleDecl : Decl :=
  { runlevel := 3, command := "/usr/sbin/sshd", dependencies := "syslogd",
    memory_limit := 67108864, cpu_limit := 20 }

/-- A running record used to build concrete registries. -/
def procP : Process := newRecord 1 "/bin/p" 0 "" 0 0

/-- A state whose table is full (`process_count = MAX_PROCESSES`). -/
def fullState : SysState :=
  { processes := List.replicate MAX_PROCESSES procP, current_runlevel := 0 }

/-- A dependency-free declaration at runlevel 0. -/
def declA : Decl :=
  { runlevel := 0, command := "/bin/a", dependencies := "", memory_limit := 0, cpu_limit := 0 }

/-- Boot `/bin/a`, observe its exit, then let a health tick "restart" it. -/
def dupSeq : List Event :=
  [Event.initLine declA (some 1), Event.childExit 1 0, Event.healthTick [some 2]]

/-! ## Helper lemmas -/

theorem depRunning_iff (procs : List Process) (dep : String) :
    depRunning procs dep = true ↔ ∃ p ∈ procs, p.command = dep ∧ p.state = "running" := by
  induction procs with
  | nil => simp [depRunning]
  | cons p rest ih =>
    by_cases h : p.command = dep ∧ p.state = "running"
    · constructor
      · intro _
        exact ⟨p, List.mem_cons_self p rest, h⟩
      · intro _
        simp [depRunning, h]
    · simp only [depRunning, if_neg h, ih]
      constructor
      · rintro ⟨q, hq, hcs⟩
        exact ⟨q, List.mem_cons_of_mem p hq, hcs⟩
      · rintro ⟨q, hq, hcs⟩
        rcases List.mem_cons.mp hq with rfl | hq'
        · exact absurd hcs h
        · exact ⟨q, hq', hcs⟩

theorem checkTokens_iff (procs : List Process) (toks : List String) :
    checkTokens procs toks = true ↔ ∀ dep ∈ toks, depRunning procs dep = true := by
  induction toks with
  | nil => simp [checkTokens]
  | cons dep rest ih =>
    by_cases h : depRunning procs dep = true
    · simp [checkTokens, h, ih]
    · simp [checkTokens, h]

/-! ## Lemmas on the sscanf scan of a single line -/

theorem suffix_append_newline {s cs' : List Char} (h : s <:+ cs' ++ ['\n']) :
    s = [] ∨ ∃ s', s' <:+ cs' ∧ s = s' ++ ['\n'] := by
  obtain ⟨t, ht⟩ := h
  rcases List.eq_nil_or_concat' s with rfl | ⟨s', x, rfl⟩
  · exact Or.inl rfl
  · right
    have h2 : (t ++ s') ++ [x] = cs' ++ ['\n'] := by
      rw [← ht, List.append_assoc]
    obtain ⟨hts, hx⟩ := List.append_inj' h2 rfl
    have hx' : x = '\n' := by simpa using hx
    exact ⟨s', ⟨t, hts⟩, by rw [hx']⟩

theorem noInnerNl_suffix {s cs : List Char} (hs : s <:+ cs) (h : noInnerNl cs) :
    noInnerNl s := by
  rcases h with h | ⟨cs', rfl, hnl⟩
  · exact Or.inl fun hm => h (hs.subset hm)
  · rcases suffix_append_newline hs with rfl | ⟨s', hs', rfl⟩
    · exact Or.inl (by simp)
    · exact Or.inr ⟨s', rfl, fun hm => hnl (hs'.subset hm)⟩

theorem skipWs_suffix (cs : List Char) : skipWs cs <:+ cs :=
  ⟨cs.takeWhile isSpaceC, List.takeWhile_append_dropWhile isSpaceC cs⟩

theorem parseUnsigned_suffix {cs r : List Char} {v : Int}
    (h : parseUnsigned cs = some (v, r)) : r <:+ cs := by
  by_cases hd : (cs.takeWhile Char.isDigit).isEmpty
  · simp [parseUnsigned, hd] at h
  · simp only [parseUnsigned, hd] at h
    rw [if_neg (by decide)] at h
    obtain ⟨-, h2⟩ := Prod.mk.injEq .. ▸ Option.some.injEq .. ▸ h
    rw [← h2]
    exact ⟨cs.takeWhile Char.isDigit, List.takeWhile_append_dropWhile Char.isDigit cs⟩

theorem parseIntC_suffix {cs r : List Char} {v : Int}
    (h : parseIntC cs = some (v, r)) : r <:+ cs := by
  have hskip : skipWs cs <:+ cs := skipWs_suffix cs
  unfold parseIntC at h
  split at h
  · cases h
  next c rest heq =>
    rw [heq] at hskip
    have hrest : rest <:+ cs := (List.suffix_cons c rest).trans hskip
    split at h
    · obtain ⟨⟨v0, r0⟩, hpu, hmap⟩ := Option.map_eq_some'.mp h
      have hsub : r0 <:+ rest := parseUnsigned_suffix hpu
      have hr : r0 = r := by
        have := congrArg Prod.snd hmap
        simpa using this
      rw [← hr]
      exact hsub.trans hrest
    · split at h
      · exact (parseUnsigned_suffix h).trans hrest
      · exact (parseUnsigned_suffix h).trans hskip

theorem parseNotNl_rest {cs tok rest : List Char}
    (h : parseNotNl cs = some (tok, rest)) :
    rest = cs.dropWhile (fun c => c != '\n') := by
  by_cases he : (cs.takeWhile (fun c => c != '\n')).isEmpty
  · simp [parseNotNl, he] at h
  · simp only [parseNotNl, he] at h
    rw [if_neg (by decide)] at h
    obtain ⟨-, h2⟩ := Prod.mk.injEq .. ▸ Option.some.injEq .. ▸ h
    exact h2.symm

theorem dropWhile_head_not {p : Char → Bool} :
    ∀ (cs : List Char) (c : Char) (tail : List Char),
      cs.dropWhile p = c :: tail → p c = false := by
  intro cs
  induction cs with
  | nil => intro c tail h; cases h
  | cons a rest ih =>
    intro c tail h
    rw [List.dropWhile_cons] at h
    cases hb : p a with
    | true =>
      rw [hb] at h
      simp only [if_pos rfl] at h
      exact ih c tail h
    | false =>
      rw [hb] at h
      simp only [Bool.false_eq_true, if_neg] at h
      obtain ⟨h1, -⟩ := List.cons.injEq .. ▸ h
      rw [← h1]
      exact hb

theorem dropWhile_ne_nl {cs : List Char} (h : noInnerNl cs) :
    cs.dropWhile (fun c => c != '\n') = [] ∨
      cs.dropWhile (fun c => c != '\n') = ['\n'] := by
  cases hd : cs.dropWhile (fun c => c != '\n') with
  | nil => exact Or.inl rfl
  | cons c tail =>
    have hc : (c != '\n') = false := dropWhile_head_not cs c tail hd
    have hc' : c = '\n' := by simpa using hc
    subst hc'
    have hsuf : ('\n' :: tail) <:+ cs := by
      rw [← hd]
      exact ⟨cs.takeWhile (fun c => c != '\n'),
        List.takeWhile_append_dropWhile (fun c => c != '\n') cs⟩
    rcases noInnerNl_suffix hsuf h with hn | ⟨cs', hcs, hnl⟩
    · exact absurd (List.mem_cons_self _ _) hn
    · cases cs' with
      | nil =>
        right
        have : tail = [] := by simpa using hcs
        rw [this]
      | cons d ds =>
        obtain ⟨h1, -⟩ := List.cons.injEq .. ▸ hcs
        exact absurd (h1 ▸ List.mem_cons_self d ds) hnl

theorem sscanf_never_five {s : String} (h : noInnerNl s.data) :
    (sscanf_inittab s).1 ≤ 2 ∧ (sscanf_inittab s).2 = none := by
  cases h1 : parseIntC s.data with
  | none => simp [sscanf_inittab, h1]
  | some vr =>
    obtain ⟨v, r1⟩ := vr
    have hn1 : noInnerNl (skipWs r1) :=
      noInnerNl_suffix ((skipWs_suffix r1).trans (parseIntC_suffix h1)) h
    cases h2 : parseNotNl (skipWs r1) with
    | none => simp [sscanf_inittab, h1, h2]
    | some tp =>
      obtain ⟨tok, r2⟩ := tp
      have hr2 : r2 = [] ∨ r2 = ['\n'] := by
        rw [parseNotNl_rest h2]
        exact dropWhile_ne_nl hn1
      have hskip2 : skipWs r2 = [] := by
        rcases hr2 with rfl | rfl
        · rfl
        · decide
      have h3 : parseNotNl (skipWs r2) = none := by rw [hskip2]; rfl
      simp [sscanf_inittab, h1, h2, h3]

theorem init_processes_line_skips {line : String} (h : noInnerNl line.data) :
    ∀ (st : SysState) (f : Option Nat), init_processes_line st line f = (st, []) := by
  intro st f
  have h2 := (sscanf_never_five h).2
  cases hsc : sscanf_inittab line with
  | mk n o =>
    rw [hsc] at h2
    have ho : o = none := h2
    subst ho
    simp [init_processes_line, hsc]

/-! ## Claim theorems -/

/-- C1 (code_bug evidence): the §6 example line
`"3 /usr/sbin/sshd syslogd 67108864 20"` is well-formed per the schema and
parses to the expected declaration, but the source's
`sscanf("%d %[^\n] %[^\n] %d %d")` performs only 2 conversions — the first
`%[^\n]` consumes the rest of the line, so the second can never match — hence
`init_processes` skips the line. In fact no single-line input (no interior
newline, the shape `fgets` delivers) can ever reach 5 conversions, so every
inittab line, well-formed or not, is skipped and no declaration is ever
produced. -/
theorem inittab_schema_line_skipped :
    specParseLine exampleLine = some exampleDecl ∧
    (sscanf_inittab exampleLine).1 = 2 ∧
    init_processes_line initState exampleLine (some 1) = (initState, []) ∧
    ∀ (line : String), noInnerNl line.data →
      (sscanf_inittab line).1 ≤ 2 ∧
        ∀ (st : SysState) (f : Option Nat), init_processes_line st line f = (st, []) := by
  refine ⟨by decide, by decide, by decide, ?_⟩
  intro line h
  exact ⟨(sscanf_never_five h).1, init_processes_line_skips h⟩

/-- Witness for `inittab_schema_line_skipped` at a concrete input. -/
theorem inittab_schema_line_skipped_witness :
    (sscanf_inittab exampleLine).1 ≤ 2 ∧
      init_processes_line fullState exampleLine none = (fullState, []) := by
  have hnl : noInnerNl exampleLine.data :=
    Or.inr ⟨"3 /usr/sbin/sshd syslogd 67108864 20".data, by decide, by decide⟩
  obtain ⟨h1, h2⟩ := inittab_schema_line_skipped.2.2.2 exampleLine hnl
  exact ⟨h1, h2 fullState none⟩

/-- C2 counterexample: the claim says a declaration whose dependency field is
`"-"` has no dependencies, so the resolver returns true in every registry
state; but on the empty registry the source returns false, because `strtok`
yields the token `"-"` and no record named `"-"` is running. -/
theorem deps_dash_not_satisfied_in_empty_registry :
    ¬ (check_all_dependencies_active "-" [] = true) := by decide

/-- C2 (amended): the resolver returns true iff every comma-separated
`strtok` token of the dependencies string names a registry record in state
`"running"`. The string `"-"` is itself such a token, so it is satisfied only
when a command `"-"` is registered and running (it does not mean "no
dependencies"); the empty string yields no tokens and is always satisfied. -/
theorem check_all_dependencies_active_iff :
    ∀ (dependencies : String) (procs : List Process),
      check_all_dependencies_active dependencies procs = true ↔
        ∀ dep ∈ strtokTokens dependencies,
          ∃ p ∈ procs, p.command = dep ∧ p.state = "running" := by
  intro deps procs
  rw [check_all_dependencies_active, checkTokens_iff]
  constructor
  · intro h dep hdep
    exact (depRunning_iff procs dep).mp (h dep hdep)
  · intro h dep hdep
    exact (depRunning_iff procs dep).mpr (h dep hdep)

/-- Witness for `check_all_dependencies_active_iff` at a concrete input. -/
theorem check_all_dependencies_active_iff_witness :
    check_all_dependencies_active "syslogd" [newRecord 2 "syslogd" 0 "" 0 0] = true :=
  (check_all_dependencies_active_iff "syslogd" [newRecord 2 "syslogd" 0 "" 0 0]).mpr
    (by decide)

/-- C3 counterexample: on a full table, a declaration with unmet dependencies
is rejected by the capacity check (which the source runs first), not with the
`DependenciesUnmet` failure the claim requires. -/
theorem full_table_reports_capacity_not_depsUnmet :
    check_all_dependencies_active "x" fullState.processes = false ∧
    (start_process fullState "/bin/c" 0 "x" 0 0 (some 3)).2.1 ≠ StartResult.depsUnmet := by
  decide

/-- C3 (amended): provided the table is not full, `start_process` on a
declaration with unmet dependencies returns the `DependenciesUnmet` failure
with the WARNING log, does not fork (the result does not depend on the fork
outcome), and leaves the state unchanged; even when the table is full, the
failure leaves the state unchanged. -/
theorem start_process_deps_unmet_unchanged :
    ∀ (st : SysState) (command : String) (runlevel : Int) (dependencies : String)
      (memory_limit cpu_limit : Int) (forkOutcome : Option Nat),
      check_all_dependencies_active dependencies st.processes = false →
      (st.processes.length < MAX_PROCESSES →
        start_process st command runlevel dependencies memory_limit cpu_limit forkOutcome =
          (st, StartResult.depsUnmet,
            [("WARNING", "Cannot start " ++ command ++ ": dependencies not satisfied")])) ∧
      (start_process st command runlevel dependencies memory_limit cpu_limit forkOutcome).1 =
        st := by
  intro st cmd rl deps m c f h
  constructor
  · intro hlen
    simp [start_process, h, Nat.not_le.mpr hlen]
  · by_cases hlen : MAX_PROCESSES ≤ st.processes.length
    · simp [start_process, hlen]
    · simp [start_process, hlen, h]

/-- Witness for `start_process_deps_unmet_unchanged` at a concrete input. -/
theorem start_process_deps_unmet_unchanged_witness :
    start_process initState "/bin/c" 0 "x" 0 0 (some 3) =
      (initState, StartResult.depsUnmet,
        [("WARNING", "Cannot start " ++ "/bin/c" ++ ": dependencies not satisfied")]) :=
  (start_process_deps_unmet_unchanged initState "/bin/c" 0 "x" 0 0 (some 3) (by decide)).1
    (by decide)

/-- C4 counterexample: on a full table with trivially satisfied dependencies,
the retry wrapper reports success (`true`) although `start_process` failed
with the capacity error and no process was started — refuting "the wrapper
returns success if and only if the process was actually started". -/
theorem retry_wrapper_true_without_started :
    (start_process_with_retry fullState "/bin/c" 0 "" 0 0 (some 99) 3).2.1 = true ∧
    (start_process_with_retry fullState "/bin/c" 0 "" 0 0 (some 99) 3).1 = fullState ∧
    (start_process fullState "/bin/c" 0 "" 0 0 (some 99)).2.1 ≠ StartResult.started := by
  decide

/-- C4 (amended): the wrapper retries only the dependency check (with the 1-s
back-off); when the check fails on all `max_retries` attempts it logs ERROR
and returns failure, and when the check passes it invokes `start_process`
exactly once and returns success regardless of whether the process was
actually started. -/
theorem start_process_with_retry_characterized :
    ∀ (st : SysState) (command : String) (runlevel : Int) (dependencies : String)
      (memory_limit cpu_limit : Int) (forkOutcome : Option Nat) (max_retries : Nat),
      (check_all_dependencies_active dependencies st.processes = false →
        start_process_with_retry st command runlevel dependencies memory_limit cpu_limit
            forkOutcome max_retries =
          (st, false, [("ERROR", "Failed to start process after retries")])) ∧
      (check_all_dependencies_active dependencies st.processes = true → 0 < max_retries →
        start_process_with_retry st command runlevel dependencies memory_limit cpu_limit
            forkOutcome max_retries =
          ((start_process st command runlevel dependencies memory_limit cpu_limit
              forkOutcome).1,
            true,
            (start_process st command runlevel dependencies memory_limit cpu_limit
              forkOutcome).2.2)) := by
  intro st cmd rl deps m c f n
  constructor
  · intro h
    induction n with
    | zero => rfl
    | succ k ih =>
      simp only [start_process_with_retry]
      rw [if_neg (by simp [h]), ih]
  · intro h hn
    cases n with
    | zero => omega
    | succ k => simp [start_process_with_retry, h]

/-- Witness for `start_process_with_retry_characterized` at concrete inputs. -/
theorem start_process_with_retry_characterized_witness :
    start_process_with_retry initState "/bin/c" 0 "x" 0 0 (some 3) 3 =
      (initState, false, [("ERROR", "Failed to start process after retries")]) ∧
    start_process_with_retry initState "/bin/a" 0 "" 0 0 (some 1) 3 =
      ((start_process initState "/bin/a" 0 "" 0 0 (some 1)).1, true,
        (start_process initState "/bin/a" 0 "" 0 0 (some 1)).2.2) :=
  ⟨(start_process_with_retry_characterized initState "/bin/c" 0 "x" 0 0 (some 3) 3).1
      (by decide),
   (start_process_with_retry_characterized initState "/bin/a" 0 "" 0 0 (some 1) 3).2
      (by decide) (by decide)⟩

/-- C5 counterexample: with both limits 0 the source still writes both cgroup
files (value 0 each), refuting "a value of 0 causes no write of that file";
the write list also differs from the spec-modelled conditional one. -/
theorem resource_limits_written_when_zero :
    CgroupWrite.memLimit 0 ∈ set_resource_limits 7 0 0 ∧
    CgroupWrite.cpuQuota 0 ∈ set_resource_limits 7 0 0 ∧
    set_resource_limits 7 0 0 ≠ set_resource_limits_spec 7 0 0 := by decide

/-- C5 (amended): `set_resource_limits` writes both cgroup files
unconditionally — the memory file receives `memory_limit` and the CPU file
receives `cpu_limit * 10000` even when the limits are 0 — and appends the pid;
exactly when both limits are strictly positive this coincides with the spec's
conditional behavior (so the claimed `cpu_percent * 10000` value is right). -/
theorem set_resource_limits_unconditional :
    ∀ (pid : Nat) (memory_limit cpu_limit : Int),
      set_resource_limits pid memory_limit cpu_limit =
        [CgroupWrite.memLimit memory_limit, CgroupWrite.cpuQuota (cpu_limit * 10000),
         CgroupWrite.addPid pid] ∧
      (0 < memory_limit → 0 < cpu_limit →
        set_resource_limits pid memory_limit cpu_limit =
          set_resource_limits_spec pid memory_limit cpu_limit) := by
  intro pid m c
  refine ⟨rfl, fun hm hc => ?_⟩
  simp [set_resource_limits, set_resource_limits_spec, hm, hc]

/-- Witness for `set_resource_limits_unconditional` at a concrete input. -/
theorem set_resource_limits_unconditional_witness :
    set_resource_limits 7 1 2 = set_resource_limits_spec 7 1 2 :=
  (set_resource_limits_unconditional 7 1 2).2 (by decide) (by decide)

/-- C7 counterexample: the out-of-range runlevel request 7 is ignored, but the
log line is emitted at level ERROR, not the WARN level the claim states. -/
theorem invalid_runlevel_logged_as_error :
    (switch_runlevel initState 7 []).2 = [("ERROR", "Invalid runlevel")] ∧
    "ERROR" ≠ "WARN" := by decide

/-- C7 (amended): for every `n` with `n < 0` or `MAX_RUNLEVELS ≤ n`, the
runlevel-switch request is ignored with an ERROR log (not WARN):
`current_runlevel` and the whole registry are returned unchanged. -/
theorem switch_runlevel_invalid_ignored :
    ∀ (st : SysState) (n : Int) (config : List (Decl × Option Nat)),
      n < 0 ∨ MAX_RUNLEVELS ≤ n →
      switch_runlevel st n config = (st, [("ERROR", "Invalid runlevel")]) := by
  intro st n cfg h
  simp [switch_runlevel, h]

/-- Witness for `switch_runlevel_invalid_ignored` at a concrete input. -/
theorem switch_runlevel_invalid_ignored_witness :
    switch_runlevel initState 7 [] = (initState, [("ERROR", "Invalid runlevel")]) :=
  switch_runlevel_invalid_ignored initState 7 [] (by decide)

/-- C9: `start_process` is atomic on failure — whenever it does not reach the
success branch (capacity exceeded, dependencies unmet, or fork failure) the
process table and process count are exactly as before the call. -/
theorem start_process_atomic_on_failure :
    ∀ (st : SysState) (command : String) (runlevel : Int) (dependencies : String)
      (memory_limit cpu_limit : Int) (forkOutcome : Option Nat),
      (start_process st command runlevel dependencies memory_limit cpu_limit
          forkOutcome).2.1 ≠ StartResult.started →
      (start_process st command runlevel dependencies memory_limit cpu_limit
          forkOutcome).1 = st := by
  intro st cmd rl deps m c f h
  by_cases h1 : MAX_PROCESSES ≤ st.processes.length
  · simp [start_process, h1]
  · by_cases h2 : check_all_dependencies_active deps st.processes = false
    · simp [start_process, h1, h2]
    · cases f with
      | none => simp [start_process, h1, h2]
      | some pid => exact absurd (by simp [start_process, h1, h2]) h

/-- Witness for `start_process_atomic_on_failure` at a concrete input. -/
theorem start_process_atomic_on_failure_witness :
    (start_process fullState "/bin/c" 0 "x" 0 0 (some 3)).1 = fullState :=
  start_process_atomic_on_failure fullState "/bin/c" 0 "x" 0 0 (some 3) (by decide)

/-- The C8 claim, formalized: some injective encoding `Exited(status)` of exit
statuses into the record-state field is realized by the child-exit handler
whenever the pid is found (injectivity is inherent in the spec's
`Exited(status)` being a constructor applied to the status). -/
def childExitRecordsStatus : Prop :=
  ∃ exitedState : Int → String, Function.Injective exitedState ∧
    ∀ (procs : List Process) (pid : Nat) (status : Int),
      (∃ p ∈ procs, p.pid = pid) →
      ∃ p ∈ (childExitUpdate procs pid status).1, p.pid = pid ∧ p.state = exitedState status

/-- C8 counterexample: the source calls `waitpid(-1, NULL, WNOHANG)` and sets
the matched record's state to the constant `"stopped"`, so exits with statuses
0 and 1 produce identical registries and no injective `Exited(status)`
encoding can be realized — the claim's "transitions to `Exited(status)`" is
false. -/
theorem child_exit_discards_status : ¬ childExitRecordsStatus := by
  rintro ⟨f, hinj, h⟩
  have hmem : ∃ p ∈ [newRecord 5 "/bin/a" 0 "" 0 0], p.pid = 5 :=
    ⟨newRecord 5 "/bin/a" 0 "" 0 0, by simp, rfl⟩
  have hval : ∀ status : Int,
      (childExitUpdate [newRecord 5 "/bin/a" 0 "" 0 0] 5 status).1 =
        [stoppedOf (newRecord 5 "/bin/a" 0 "" 0 0)] := fun _ => rfl
  have hf : ∀ status : Int, f status = "stopped" := by
    intro status
    obtain ⟨p, hp, _, hs⟩ := h [newRecord 5 "/bin/a" 0 "" 0 0] 5 status hmem
    rw [hval status] at hp
    have : p = stoppedOf (newRecord 5 "/bin/a" 0 "" 0 0) := by simpa using hp
    rw [this] at hs
    exact hs.symm
  have : (0 : Int) = 1 := hinj ((hf 0).trans (hf 1).symm)
  exact absurd this (by decide)

/-- C8 (amended): on a child-exit event, if no record holds the pid the event
is dropped silently (registry unchanged, no log); if some record holds the
pid, the first such record is marked inactive with state `"stopped"` — the
exit status is discarded — and one INFO log line is emitted. -/
theorem child_exit_update_characterized :
    ∀ (procs : List Process) (pid : Nat) (status : Int),
      ((∀ p ∈ procs, p.pid ≠ pid) → childExitUpdate procs pid status = (procs, [])) ∧
      ((∃ p ∈ procs, p.pid = pid) →
        ∃ i, ∃ h : i < procs.length,
          (procs.get ⟨i, h⟩).pid = pid ∧
          childExitUpdate procs pid status =
            (procs.set i (stoppedOf (procs.get ⟨i, h⟩)),
              [("INFO", "Process " ++ (procs.get ⟨i, h⟩).command ++ " (PID " ++
                toString pid ++ ") finished")])) := by
  intro procs pid status
  induction procs with
  | nil =>
    refine ⟨fun _ => rfl, ?_⟩
    rintro ⟨p, hp, _⟩
    exact absurd hp (List.not_mem_nil p)
  | cons p rest ih =>
    constructor
    · intro hall
      have hp : ¬ (p.pid = pid) := hall p (List.mem_cons_self p rest)
      have hrest : childExitUpdate rest pid status = (rest, []) :=
        ih.1 fun q hq => hall q (List.mem_cons_of_mem p hq)
      simp only [childExitUpdate, reapPid, if_neg hp]
      rw [show reapPid rest pid = (rest, []) from hrest]
    · rintro ⟨q, hq, hqpid⟩
      by_cases hp : p.pid = pid
      · exact ⟨0, by simp, hp, by simp [childExitUpdate, reapPid, hp]⟩
      · have hqr : ∃ q ∈ rest, q.pid = pid := by
          rcases List.mem_cons.mp hq with rfl | hmem
          · exact absurd hqpid hp
          · exact ⟨q, hmem, hqpid⟩
        obtain ⟨i, h, hpid, heq⟩ := ih.2 hqr
        refine ⟨i + 1, Nat.succ_lt_succ h, ?_, ?_⟩
        · simpa using hpid
        · simp only [childExitUpdate, reapPid, if_neg hp]
          rw [show reapPid rest pid =
              (rest.set i (stoppedOf (rest.get ⟨i, h⟩)),
                [("INFO", "Process " ++ (rest.get ⟨i, h⟩).command ++ " (PID " ++
                  toString pid ++ ") finished")]) from heq]
          simp

/-- Witness for `child_exit_update_characterized` at concrete inputs. -/
theorem child_exit_update_characterized_witness :
    childExitUpdate [] 5 0 = ([], []) ∧
    (childExitUpdate [newRecord 5 "/bin/a" 0 "" 0 0] 5 0).1 =
      [stoppedOf (newRecord 5 "/bin/a" 0 "" 0 0)] := by
  refine ⟨(child_exit_update_characterized [] 5 0).1 (by simp), ?_⟩
  obtain ⟨i, h, hpid, heq⟩ :=
    (child_exit_update_characterized [newRecord 5 "/bin/a" 0 "" 0 0] 5 0).2
      ⟨newRecord 5 "/bin/a" 0 "" 0 0, by simp, rfl⟩
  have hi : i = 0 := by
    have hlt : i < 1 := by simpa using h
    omega
  subst hi
  rw [heq]
  rfl

/-! ## The runlevel invariant (C10) -/

/-- Every record in the registry is declared for the current runlevel. -/
def runlevelInv (st : SysState) : Prop :=
  ∀ p ∈ st.processes, p.runlevel = st.current_runlevel

/-- `start_process` either leaves the state unchanged or appends exactly the
new record for the requested declaration. -/
theorem start_process_state (st : SysState) (cmd : String) (rl : Int) (deps : String)
    (m c : Int) (f : Option Nat) :
    (start_process st cmd rl deps m c f).1 = st ∨
      ∃ pid, (start_process st cmd rl deps m c f).1 =
        { st with processes := st.processes ++ [newRecord pid cmd rl deps m c] } := by
  by_cases h1 : MAX_PROCESSES ≤ st.processes.length
  · left; simp [start_process, h1]
  · by_cases h2 : check_all_dependencies_active deps st.processes = false
    · left; simp [start_process, h1, h2]
    · cases f with
      | none => left; simp [start_process, h1, h2]
      | some pid => right; exact ⟨pid, by simp [start_process, h1, h2]⟩

theorem start_process_inv (st : SysState) (cmd : String) (rl : Int) (deps : String)
    (m c : Int) (f : Option Nat) (hinv : runlevelInv st) (hrl : rl = st.current_runlevel) :
    runlevelInv (start_process st cmd rl deps m c f).1 ∧
      (start_process st cmd rl deps m c f).1.current_runlevel = st.current_runlevel := by
  rcases start_process_state st cmd rl deps m c f with h | ⟨pid, h⟩
  · rw [h]; exact ⟨hinv, rfl⟩
  · rw [h]
    constructor
    · intro p hp
      rcases List.mem_append.mp hp with hold | hnew
      · exact hinv p hold
      · rw [List.mem_singleton.mp hnew, hrl]; rfl
    · rfl

/-- The state the retry wrapper leaves behind is the old state or the state
after the single `start_process` call. -/
theorem start_process_with_retry_state (st : SysState) (cmd : String) (rl : Int)
    (deps : String) (m c : Int) (f : Option Nat) :
    ∀ n, (start_process_with_retry st cmd rl deps m c f n).1 = st ∨
      (start_process_with_retry st cmd rl deps m c f n).1 =
        (start_process st cmd rl deps m c f).1 := by
  intro n
  induction n with
  | zero => left; rfl
  | succ k ih =>
    by_cases h : check_all_dependencies_active deps st.processes = true
    · right
      simp [start_process_with_retry, h]
    · have heq : start_process_with_retry st cmd rl deps m c f (k + 1) =
          start_process_with_retry st cmd rl deps m c f k := by
        simp [start_process_with_retry, h]
      rw [heq]
      exact ih

theorem start_process_with_retry_inv (st : SysState) (cmd : String) (rl : Int) (deps : String)
    (m c : Int) (f : Option Nat) (hinv : runlevelInv st) (hrl : rl = st.current_runlevel) :
    ∀ n, runlevelInv (start_process_with_retry st cmd rl deps m c f n).1 ∧
      (start_process_with_retry st cmd rl deps m c f n).1.current_runlevel =
        st.current_runlevel := by
  intro n
  rcases start_process_with_retry_state st cmd rl deps m c f n with h | h
  · rw [h]; exact ⟨hinv, rfl⟩
  · rw [h]; exact start_process_inv st cmd rl deps m c f hinv hrl

theorem init_decl_inv (st : SysState) (d : Decl) (f : Option Nat) (hinv : runlevelInv st) :
    runlevelInv (init_decl st d f).1 ∧
      (init_decl st d f).1.current_runlevel = st.current_runlevel := by
  by_cases h : d.runlevel = st.current_runlevel
  · have heq : (init_decl st d f).1 =
        (start_process_with_retry st d.command d.runlevel d.dependencies d.memory_limit
          d.cpu_limit f 3).1 := by
      simp [init_decl, h]
    rw [heq]
    exact start_process_with_retry_inv st d.command d.runlevel d.dependencies d.memory_limit
      d.cpu_limit f hinv h 3
  · have heq : (init_decl st d f).1 = st := by simp [init_decl, h]
    rw [heq]
    exact ⟨hinv, rfl⟩

theorem init_decls_inv (cfg : List (Decl × Option Nat)) :
    ∀ st : SysState, runlevelInv st →
      runlevelInv (init_decls st cfg).1 ∧
        (init_decls st cfg).1.current_runlevel = st.current_runlevel := by
  induction cfg with
  | nil => exact fun st hinv => ⟨hinv, rfl⟩
  | cons df rest ih =>
    intro st hinv
    obtain ⟨h1, h2⟩ := init_decl_inv st df.1 df.2 hinv
    obtain ⟨h3, h4⟩ := ih (init_decl st df.1 df.2).1 h1
    exact ⟨h3, h4.trans h2⟩

theorem reapPid_runlevels (procs : List Process) (pid : Nat) (c : Int)
    (h : ∀ p ∈ procs, p.runlevel = c) : ∀ p ∈ (reapPid procs pid).1, p.runlevel = c := by
  induction procs with
  | nil => simp [reapPid]
  | cons p rest ih =>
    by_cases hp : p.pid = pid
    · simp only [reapPid, if_pos hp]
      intro q hq
      rcases List.mem_cons.mp hq with rfl | hmem
      · exact h p (List.mem_cons_self p rest)
      · exact h q (List.mem_cons_of_mem p hmem)
    · simp only [reapPid, if_neg hp]
      intro q hq
      rcases List.mem_cons.mp hq with rfl | hmem
      · exact h q (List.mem_cons_self q rest)
      · exact ih (fun r hr => h r (List.mem_cons_of_mem p hr)) q hmem

theorem stopFirst_runlevels (procs : List Process) (name : String) (c : Int)
    (h : ∀ p ∈ procs, p.runlevel = c) : ∀ p ∈ stopFirst procs name, p.runlevel = c := by
  induction procs with
  | nil => simp [stopFirst]
  | cons p rest ih =>
    by_cases hp : p.command = name ∧ p.active = true
    · simp only [stopFirst, if_pos hp]
      intro q hq
      rcases List.mem_cons.mp hq with rfl | hmem
      · exact h p (List.mem_cons_self p rest)
      · exact h q (List.mem_cons_of_mem p hmem)
    · simp only [stopFirst, if_neg hp]
      intro q hq
      rcases List.mem_cons.mp hq with rfl | hmem
      · exact h q (List.mem_cons_self q rest)
      · exact ih (fun r hr => h r (List.mem_cons_of_mem p hr)) q hmem

theorem health_scan_inv (fuel : Nat) :
    ∀ (st : SysState) (i : Nat) (forks : List (Option Nat)), runlevelInv st →
      runlevelInv (health_scan st i forks fuel).1 ∧
        (health_scan st i forks fuel).1.current_runlevel = st.current_runlevel := by
  induction fuel with
  | zero => exact fun st i forks hinv => ⟨hinv, rfl⟩
  | succ k ih =>
    intro st i forks hinv
    cases hget : st.processes[i]? with
    | none =>
      have heq : health_scan st i forks (k + 1) = (st, []) := by
        simp [health_scan, hget]
      rw [heq]
      exact ⟨hinv, rfl⟩
    | some p =>
      have hmem : p ∈ st.processes := List.getElem?_mem hget
      have hprl : p.runlevel = st.current_runlevel := hinv p hmem
      by_cases ha : p.active = true
      · have heq : health_scan st i forks (k + 1) = health_scan st (i + 1) forks k := by
          simp [health_scan, hget, ha]
        rw [heq]
        exact ih st (i + 1) forks hinv
      · have heq : (health_scan st i forks (k + 1)).1 =
            (health_scan
              (start_process_with_retry st p.command p.runlevel p.dependencies p.memory_limit
                p.cpu_limit (forks.headD none) 3).1 (i + 1) forks.tail k).1 := by
          simp [health_scan, hget, ha]
        obtain ⟨h1, h2⟩ := start_process_with_retry_inv st p.command p.runlevel p.dependencies
          p.memory_limit p.cpu_limit (forks.headD none) hinv hprl 3
        obtain ⟨h3, h4⟩ := ih
          (start_process_with_retry st p.command p.runlevel p.dependencies p.memory_limit
            p.cpu_limit (forks.headD none) 3).1 (i + 1) forks.tail h1
        rw [heq]
        exact ⟨h3, h4.trans h2⟩

theorem step_inv (st : SysState) (e : Event) (hinv : runlevelInv st) :
    runlevelInv (step st e).1 := by
  cases e with
  | initLine d f => exact (init_decl_inv st d f hinv).1
  | childExit pid status =>
    intro p hp
    exact reapPid_runlevels st.processes pid st.current_runlevel hinv p hp
  | healthTick forks => exact (health_scan_inv (MAX_PROCESSES + 1) st 0 forks hinv).1
  | switchRL n cfg =>
    show runlevelInv (switch_runlevel st n cfg).1
    by_cases h : n < 0 ∨ MAX_RUNLEVELS ≤ n
    · have heq : (switch_runlevel st n cfg).1 = st := by simp [switch_runlevel, h]
      rw [heq]
      exact hinv
    · have h0 : runlevelInv { processes := [], current_runlevel := n } := by
        intro p hp
        exact absurd hp (List.not_mem_nil p)
      have heq : (switch_runlevel st n cfg).1 =
          (init_decls { processes := [], current_runlevel := n } cfg).1 := by
        simp [switch_runlevel, h]
      rw [heq]
      exact (init_decls_inv cfg _ h0).1
  | reload cfg =>
    show runlevelInv (reload_configuration st cfg).1
    have h0 : runlevelInv { st with processes := ([] : List Process) } := by
      intro p hp
      exact absurd hp (List.not_mem_nil p)
    exact (init_decls_inv cfg _ h0).1
  | manageStart name f =>
    show runlevelInv (manage_start st name f).1
    cases hfind : st.processes.find? (fun p => p.command == name && !p.active) with
    | none =>
      have heq : (manage_start st name f).1 = st := by simp [manage_start, hfind]
      rw [heq]
      exact hinv
    | some p =>
      have hmem : p ∈ st.processes := List.mem_of_find?_eq_some hfind
      have hrl : p.runlevel = st.current_runlevel := hinv p hmem
      have heq : (manage_start st name f).1 =
          (start_process st p.command p.runlevel p.dependencies p.memory_limit p.cpu_limit
            f).1 := by
        simp [manage_start, hfind]
      rw [heq]
      exact (start_process_inv st p.command p.runlevel p.dependencies p.memory_limit
        p.cpu_limit f hinv hrl).1
  | manageStop name =>
    intro p hp
    exact stopFirst_runlevels st.processes name st.current_runlevel hinv p hp

theorem runEvents_inv (evs : List Event) :
    ∀ st : SysState, runlevelInv st → runlevelInv (runEvents st evs) := by
  induction evs with
  | nil => exact fun st hinv => hinv
  | cons e rest ih => exact fun st hinv => ih (step st e).1 (step_inv st e hinv)

/-- C10: starting from boot (empty table, runlevel 0), after any sequence of
events every record in the registry has its runlevel equal to
`current_runlevel` — declarations are only installed at the matching runlevel
and a runlevel switch empties the table before reseeding. -/
theorem registry_runlevel_matches_current :
    ∀ (evs : List Event) (p : Process), p ∈ (runEvents initState evs).processes →
      p.runlevel = (runEvents initState evs).current_runlevel := by
  intro evs p hp
  exact runEvents_inv evs initState (fun q hq => absurd hq (List.not_mem_nil q)) p hp

/-- Witness for `registry_runlevel_matches_current` at a concrete input. -/
theorem registry_runlevel_matches_current_witness :
    (newRecord 1 "/bin/a" 0 "" 0 0).runlevel =
      (runEvents initState [Event.initLine declA (some 1)]).current_runlevel :=
  registry_runlevel_matches_current [Event.initLine declA (some 1)]
    (newRecord 1 "/bin/a" 0 "" 0 0) (by decide)

/-- C6 (code_bug evidence): boot `/bin/a`, let its child (pid 1) exit, then
let a health tick run. The health scan "restarts" the service by appending a
fresh record while the stale stopped record stays in the table, so the
registry holds two records with command `/bin/a` — the uniqueness invariant
the claim states is violated by the code. -/
theorem health_restart_duplicates_command :
    ((runEvents initState dupSeq).processes.map fun p => p.command) =
      ["/bin/a", "/bin/a"] ∧
    ¬ ((runEvents initState dupSeq).processes.map fun p => p.command).Nodup := by
  refine ⟨by decide, ?_⟩
  intro h
  rw [show ((runEvents initState dupSeq).processes.map fun p => p.command) =
    ["/bin/a", "/bin/a"] from by decide] at h
  simp at h

end InitV3
